import Mathlib

/-
Verification of the chart markdown-extension pipeline in
`src/scripts/chart_extension.py`.

The pipeline consists of:
  * `ChartPreprocessor.run`  (the extractor): scans markdown lines, pulls out
    ```chart fenced blocks, parses their body as YAML, stores the parsed
    configuration in a per-run store keyed by a generated identifier, and
    replaces the block with a placeholder line;
  * `ChartPostprocessor.run` (the renderer): scans the produced HTML for
    placeholder markers and replaces each one whose identifier is in the
    store with a generated chart widget;
  * `ChartPostprocessor._deep_merge`: a recursive dictionary merge of the
    default presentation options with the user-supplied options;
  * `get_chart_template` / `CHART_TEMPLATES`: canned chart configurations
    with top-level keyword overrides.

YAML/JSON-like configuration trees are embedded as the mutual inductive
`Value` / `ValueList` / `Entries` below.  Python dictionaries are modelled
as `Entries`: ordered association lists, with the Python-dict invariant of
per-level key uniqueness expressed by the predicates `Entries.keysNodup`
(one level) and `Entries.wf` (recursively through nested dict values).
The YAML parser and the uuid-based identifier source are external
collaborators of the code under test, so they enter the embedding as
parameters (`parse : String → Except String Value`, `gen : Nat → String`).
-/

set_option maxHeartbeats 4000000
set_option maxRecDepth 1000000

namespace ChartExt

-- The space of decoded YAML / JSON configuration values.
-- `dict` keeps insertion order, like a Python dict.  `dec m e` stands for
-- the decimal literal m / 10^e and models the Python float literals that
-- occur in CHART_TEMPLATES (all of which are exact decimals).
mutual

inductive Value where
  | str (s : String)
  | int (n : Int)
  | dec (m : Int) (e : Nat)
  | bool (b : Bool)
  | null
  | arr (vs : ValueList)
  | dict (es : Entries)
deriving DecidableEq

inductive ValueList where
  | nil
  | cons (v : Value) (tl : ValueList)
deriving DecidableEq

inductive Entries where
  | nil
  | cons (k : String) (v : Value) (tl : Entries)
deriving DecidableEq

end

/-- Induction on an association list along its tail (the `induction`
tactic cannot use the mutual recursor directly). -/
@[induction_eliminator]
def Entries.recTail {motive : Entries → Sort u} (nil : motive .nil)
    (cons : ∀ k v tl, motive tl → motive (.cons k v tl)) : ∀ e, motive e
  | .nil => nil
  | .cons k v tl => cons k v tl (Entries.recTail nil cons tl)

/-- Lookup in an association list: first entry with the given key,
like Python `d[key]` / `key in d` on a dict (keys are unique there). -/
def Entries.lookup : Entries → String → Option Value
  | .nil, _ => none
  | .cons k v tl, key => if k = key then some v else tl.lookup key

/-- Python `d[key] = val` on a dict: replace the value of the first entry
with that key in place (dicts keep insertion order on overwrite), or
append a new entry at the end when the key is absent. -/
def dictUpdate : Entries → String → Value → Entries
  | .nil, key, val => .cons key val .nil
  | .cons k v tl, key, val =>
      if k = key then .cons k val tl else .cons k v (dictUpdate tl key val)

/-- Model of `ChartPostprocessor._deep_merge(dict1, dict2)` (chart_extension.py
lines 170-178).  `result` starts as a copy of `dict1`; the loop walks the
items of `dict2`: when the key is present in `result` and both values are
dicts the values are merged recursively, otherwise the overlay value is
assigned.  The first argument threads the loop variable `result`. -/
def deep_merge : Entries → Entries → Entries
  | result, .nil => result
  | result, .cons k v tl =>
      let nextResult :=
        match result.lookup k, v with
        | some (.dict es1), .dict es2 => dictUpdate result k (.dict (deep_merge es1 es2))
        | _, _ => dictUpdate result k v
      deep_merge nextResult tl

/-- Key uniqueness at one dict level (always true of a Python dict). -/
def Entries.keysNodup : Entries → Bool
  | .nil => true
  | .cons k _ tl => !(tl.lookup k).isSome && tl.keysNodup

-- Key uniqueness at every dict level of a configuration tree: the
-- invariant enjoyed by every value decoded from YAML/JSON.
mutual

def Value.wf : Value → Bool
  | .dict es => es.wf
  | .arr vs => vs.wf
  | _ => true

def ValueList.wf : ValueList → Bool
  | .nil => true
  | .cons v tl => v.wf && tl.wf

def Entries.wf : Entries → Bool
  | .nil => true
  | .cons k v tl => !(tl.lookup k).isSome && v.wf && tl.wf

end

-- A size measure on configuration trees, used for the strong induction
-- behind the `merge(D, D) = D` idempotence proof.
mutual

def Value.sz : Value → Nat
  | .dict es => es.sz + 1
  | .arr vs => vs.sz + 1
  | _ => 1

def ValueList.sz : ValueList → Nat
  | .nil => 0
  | .cons v tl => v.sz + tl.sz + 1

def Entries.sz : Entries → Nat
  | .nil => 0
  | .cons _ v tl => v.sz + tl.sz + 1

end

/-- The pairs of an association list, in order. -/
def Entries.toList : Entries → List (String × Value)
  | .nil => []
  | .cons k v tl => (k, v) :: tl.toList

/-- The per-key value computed by one iteration of the `_deep_merge` loop:
the recursive merge when the key is present in `result` and both values
are dicts, the overlay value otherwise. -/
def mergeVal : Option Value → Value → Value
  | some (.dict es1), .dict es2 => .dict (deep_merge es1 es2)
  | _, v => v

/-! The extractor: `ChartPreprocessor.run` (chart_extension.py lines 19-60). -/
/-- Python `str.strip()`: drop leading and trailing whitespace.  (Defined
over the character list so that it evaluates by kernel reduction.) -/
def pyStrip (s : String) : String :=
  ⟨((s.data.dropWhile Char.isWhitespace).reverse.dropWhile Char.isWhitespace).reverse⟩

/-- Python `'\n'.join(lines)`. -/
def joinLines : List String → String
  | [] => ""
  | [l] => l
  | l :: rest => l ++ "\n" ++ joinLines rest

/-- The placeholder emitted for a successfully parsed chart block
(line 49 of chart_extension.py). -/
def placeholderLine (chartId : String) : String :=
  "<div class=\"chart-placeholder\" data-chart-id=\"" ++ chartId ++ "\"></div>"

/-- The inline error marker emitted when YAML parsing fails
(line 53 of chart_extension.py). -/
def errorLine (msg : String) : String :=
  "<div class=\"chart-error\">Chart configuration error: " ++ msg ++ "</div>"

/-- Model of `ChartPreprocessor.run(lines)`.  The YAML parser (`yaml.safe_load`,
which either returns a decoded value or raises `yaml.YAMLError` with a
message) enters as the parameter `parse`; the uuid-derived identifier
source (`"chart_" + uuid.uuid4().hex[:8]`) enters as the stream `gen`,
sampled at an index that advances once per generated identifier.  The
state is the remaining line list, the next fresh
index, and the lazily created configuration store
(`self.md.chart_configs`; `none` while the attribute does not exist).
The inner `while` loop that scans for the closing fence is the
`takeWhile`/`dropWhile` pair; the final `i += 1` of the outer loop skips
the closing fence, hence the `drop 1`. -/
def chartRun (parse : String → Except String Value) (gen : Nat → String) :
    List String → Nat → Option Entries → (List String × Nat × Option Entries)
  | [], n, store => ([], n, store)
  | line :: rest, n, store =>
      if pyStrip line = "```chart" then
        let chartLines := rest.takeWhile (fun l => pyStrip l != "```")
        let rest' := (rest.dropWhile (fun l => pyStrip l != "```")).drop 1
        if chartLines.isEmpty then
          chartRun parse gen rest' n store
        else
          match parse (joinLines chartLines) with
          | .ok cfg =>
              let cid := gen n
              let out := chartRun parse gen rest' (n + 1)
                (some (dictUpdate (store.getD .nil) cid cfg))
              (placeholderLine cid :: out.1, out.2)
          | .error e =>
              let out := chartRun parse gen rest' n store
              (errorLine e :: out.1, out.2)
      else
        let out := chartRun parse gen rest n store
        (line :: out.1, out.2)
  termination_by lines _ _ => lines.length
  decreasing_by
    all_goals simp only [List.length_cons]
    all_goals
      have h1 : ((rest.dropWhile (fun l => pyStrip l != "```"))).length
          ≤ rest.length := by
        induction rest with
        | nil => simp
        | cons a tl ih =>
            cases hp : (pyStrip a != "```")
            · simp [List.dropWhile_cons, hp]
            · simp only [List.dropWhile_cons, hp, if_true, List.length_cons]
              omega
      have h2 : (((rest.dropWhile (fun l => pyStrip l != "```")).drop 1)).length
          ≤ ((rest.dropWhile (fun l => pyStrip l != "```"))).length := by
        cases (rest.dropWhile (fun l => pyStrip l != "```")) <;> simp
      omega

/-! Structured input documents.

A document made of chart blocks and ordinary lines.  `flattenDoc` recovers
the raw line sequence fed to the extractor; the `specOut` / `specStore`
functions state what the extractor must produce for it. -/
inductive Seg where
  | text (l : String)
  | chart (body : List String)

def Seg.flatten : Seg → List String
  | .text l => [l]
  | .chart body => "```chart" :: body ++ ["```"]

def flattenDoc : List Seg → List String
  | [] => []
  | s :: rest => s.flatten ++ flattenDoc rest

/-- A well-formed document segment: an ordinary line is not a chart fence
opener, and a chart block has a non-empty body, no closing fence inside
the body, and a body that parses. -/
def Seg.WellFormed (parse : String → Except String Value) : Seg → Prop
  | .text l => pyStrip l ≠ "```chart"
  | .chart body =>
      body ≠ [] ∧ (∀ l ∈ body, pyStrip l ≠ "```") ∧ (parse (joinLines body)).isOk = true

def chartCount : List Seg → Nat
  | [] => 0
  | .text _ :: rest => chartCount rest
  | .chart _ :: rest => chartCount rest + 1

/-- Expected extractor output: ordinary lines verbatim in order, one
placeholder line per chart block, identifiers drawn in order. -/
def specOut (gen : Nat → String) : List Seg → Nat → List String
  | [], _ => []
  | .text l :: rest, n => l :: specOut gen rest n
  | .chart _ :: rest, n => placeholderLine (gen n) :: specOut gen rest (n + 1)

def okValue : Except String Value → Value
  | .ok v => v
  | .error _ => .null

/-- Expected final configuration store: one entry per chart block, in
document order, keyed by the block's placeholder identifier. -/
def specStore (parse : String → Except String Value) (gen : Nat → String) :
    List Seg → Nat → Entries
  | [], _ => .nil
  | .text _ :: rest, n => specStore parse gen rest n
  | .chart body :: rest, n =>
      .cons (gen n) (okValue (parse (joinLines body))) (specStore parse gen rest (n + 1))

def appendEntries : Entries → Entries → Entries
  | .nil, b => b
  | .cons k v tl, b => .cons k v (appendEntries tl b)

/-- A concrete parser for witnesses: accepts exactly the body
"type: bar". -/
def wParse : String → Except String Value :=
  fun s => if s = "type: bar" then .ok (.dict (.cons "type" (.str "bar") .nil))
           else .error "mapping values are not allowed here"

/-- A concrete injective identifier source for witnesses. -/
def wGen : Nat → String := fun j => String.mk (List.replicate (j + 1) 'i')

def wDoc : List Seg := [.text "# Title", .chart ["type: bar"], .text "done"]

/-! The renderer: `ChartPostprocessor` (chart_extension.py lines 63-178).

The renderer involves three external text mechanisms that are modelled
character by character so that everything evaluates by kernel reduction:
`json.dumps(config, indent=2)`, the callback-unquoting
`re.sub(r#"function\(([^)]*)\)\s*{\s*([^}]+)\s*}"#, ...)`, and the
placeholder-pattern scan of `re.sub` in `ChartPostprocessor.run`.
Python exceptions (the `AttributeError` raised by calling `.get` on a
non-dict configuration object or iterating `.items()` of a non-dict
options object) are modelled by `Except String`. -/
/-- Decimal digits of a natural number (fuel-recursive so that it reduces
in the kernel; `n + 1` fuel always suffices since n/10 shrinks). -/
def natChars : Nat → Nat → List Char
  | 0, _ => []
  | fuel + 1, n =>
      if n < 10 then [Nat.digitChar n]
      else natChars fuel (n / 10) ++ [Nat.digitChar (n % 10)]

def natToStr (n : Nat) : String := String.mk (natChars (n + 1) n)

/-- Python `str(i)` / json serialisation of an int. -/
def intToStr (n : Int) : String :=
  if n < 0 then "-" ++ natToStr (-n).toNat else natToStr n.toNat

/-- Python `repr` of the float literal m / 10^e (exact decimals only,
which covers every float in CHART_TEMPLATES). -/
def decToStr (m : Int) (e : Nat) : String :=
  let sign := if m < 0 then "-" else ""
  let ds := natChars (m.natAbs + 1) m.natAbs
  if e = 0 then sign ++ String.mk ds ++ ".0"
  else if ds.length ≤ e then
    sign ++ "0." ++ String.mk (List.replicate (e - ds.length) '0' ++ ds)
  else
    sign ++ String.mk (ds.take (ds.length - e)) ++ "." ++ String.mk (ds.drop (ds.length - e))

-- Python `repr` for configuration values, used by `str()` on non-string
-- values.  (String quoting/escaping inside containers is simplified to
-- plain single quotes; no value exercised by the claims hits that case.)
mutual

def pyRepr : Value → String
  | .str s => "\x27" ++ s ++ "\x27"
  | .int n => intToStr n
  | .dec m e => decToStr m e
  | .bool b => if b then "True" else "False"
  | .null => "None"
  | .arr .nil => "[]"
  | .arr vs => "[" ++ pyReprList vs ++ "]"
  | .dict .nil => "\x7b\x7d"
  | .dict es => "\x7b" ++ pyReprEntries es ++ "\x7d"

def pyReprList : ValueList → String
  | .nil => ""
  | .cons v .nil => pyRepr v
  | .cons v tl => pyRepr v ++ ", " ++ pyReprList tl

def pyReprEntries : Entries → String
  | .nil => ""
  | .cons k v .nil => "\x27" ++ k ++ "\x27: " ++ pyRepr v
  | .cons k v tl => "\x27" ++ k ++ "\x27: " ++ pyRepr v ++ ", " ++ pyReprEntries tl

end

/-- Python `str(v)`, as used by the f-string interpolation of the widget
markup (`{width}`, `{height}`). -/
def pyStr : Value → String
  | .str s => s
  | v => pyRepr v

def hexDigit (n : Nat) : Char := Nat.digitChar (n % 16)

/-- JSON string escaping as `json.dumps` performs it (ensure_ascii; the
astral-plane surrogate-pair case is not modelled — no claim exercises
non-ASCII text). -/
def jsonEscapeChar (c : Char) : List Char :=
  if c = '"' then ['\\', '"']
  else if c = '\\' then ['\\', '\\']
  else if c = '\n' then ['\\', 'n']
  else if c = '\t' then ['\\', 't']
  else if c = '\r' then ['\\', 'r']
  else if c = '\x08' then ['\\', 'b']
  else if c = '\x0c' then ['\\', 'f']
  else if c.toNat < 32 || c.toNat > 126 then
    '\\' :: 'u' :: [hexDigit (c.toNat / 4096), hexDigit (c.toNat / 256),
      hexDigit (c.toNat / 16), hexDigit c.toNat]
  else [c]

def jsonQuote (s : String) : String :=
  "\"" ++ String.mk (s.data.foldr (fun c acc => jsonEscapeChar c ++ acc) []) ++ "\""

def indentStr (lvl : Nat) : String := String.mk (List.replicate (2 * lvl) ' ')

-- `json.dumps(value, indent=2)` at nesting level `lvl` (with the default
-- separators `(",", ": ")` that Python uses when `indent` is given).
mutual

def jsonDumps (lvl : Nat) : Value → String
  | .str s => jsonQuote s
  | .int n => intToStr n
  | .dec m e => decToStr m e
  | .bool b => if b then "true" else "false"
  | .null => "null"
  | .arr .nil => "[]"
  | .arr vs => "[\n" ++ jsonItems (lvl + 1) vs ++ "\n" ++ indentStr lvl ++ "]"
  | .dict .nil => "\x7b\x7d"
  | .dict es => "\x7b\n" ++ jsonPairs (lvl + 1) es ++ "\n" ++ indentStr lvl ++ "\x7d"

def jsonItems (lvl : Nat) : ValueList → String
  | .nil => ""
  | .cons v .nil => indentStr lvl ++ jsonDumps lvl v
  | .cons v tl => indentStr lvl ++ jsonDumps lvl v ++ ",\n" ++ jsonItems lvl tl

def jsonPairs (lvl : Nat) : Entries → String
  | .nil => ""
  | .cons k v .nil => indentStr lvl ++ jsonQuote k ++ ": " ++ jsonDumps lvl v
  | .cons k v tl =>
      indentStr lvl ++ jsonQuote k ++ ": " ++ jsonDumps lvl v ++ ",\n" ++ jsonPairs lvl tl

end

/-- Strip a literal prefix from a character list. -/
def dropPfx : List Char → List Char → Option (List Char)
  | [], rest => some rest
  | _ :: _, [] => none
  | p :: ps, c :: cs => if c = p then dropPfx ps cs else none

/-- Python regex `\s`. -/
def isPySpace (c : Char) : Bool :=
  c = ' ' || c = '\t' || c = '\n' || c = '\r' || c = '\x0b' || c = '\x0c'

/-- One attempted match of the callback-unquoting pattern
`"function\(([^)]*)\)\s*{\s*([^}]+)\s*}"` at the head of the input,
following the regex engine exactly: `[^)]*` and `[^}]+` are greedy, the
`\s*` between `{` and the body is greedy, and the `\s*` after the body
therefore ends up empty unless the body would otherwise be empty (in
which case backtracking hands the last whitespace character to the body
group).  Returns the replacement text `function(\1) { \2 }` and the rest
of the input after the match. -/
def fnMatch (l : List Char) : Option (List Char × List Char) :=
  match l with
  | '"' :: r0 =>
      match dropPfx ("function(").data r0 with
      | none => none
      | some r1 =>
          let params := r1.takeWhile (fun c => c != ')')
          match r1.drop params.length with
          | ')' :: r2 =>
              let ws1 := r2.takeWhile isPySpace
              match r2.drop ws1.length with
              | '\x7b' :: r3 =>
                  let ws2 := r3.takeWhile isPySpace
                  let afterWs := r3.drop ws2.length
                  let body := afterWs.takeWhile (fun c => c != '\x7d')
                  if body.isEmpty then
                    match afterWs with
                    | '\x7d' :: '"' :: r4 =>
                        match ws2.getLast? with
                        | some wc =>
                            some (("function(").data ++ params ++ (") \x7b ").data
                              ++ [wc] ++ (" \x7d").data, r4)
                        | none => none
                    | _ => none
                  else
                    match afterWs.drop body.length with
                    | '\x7d' :: '"' :: r4 =>
                        some (("function(").data ++ params ++ (") \x7b ").data
                          ++ body ++ (" \x7d").data, r4)
                    | _ => none
              | _ => none
          | _ => none
  | _ => none

/-- Model of the `re.sub` scan for the callback-unquoting pattern: leftmost matches,
non-overlapping, replaced text not rescanned.  Fuel-recursive (every step
consumes at least one character, so input length is enough fuel). -/
def reSubAux : Nat → List Char → List Char
  | 0, l => l
  | _ + 1, [] => []
  | fuel + 1, c :: cs =>
      match fnMatch (c :: cs) with
      | some (rep, rest) => rep ++ reSubAux fuel rest
      | none => c :: reSubAux fuel cs

/-- The callback-unquoting `re.sub` of `_generate_chart_html`
(chart_extension.py lines 133-137). -/
def reSubCallbacks (s : String) : String := String.mk (reSubAux s.data.length s.data)

/-- Python `config.get(key, default)` on a dict. -/
def pyGet (es : Entries) (key : String) (dflt : Value) : Value :=
  (es.lookup key).getD dflt

/-- The `default_options` template of `_generate_chart_html`
(chart_extension.py lines 95-117); `title` is the resolved title value. -/
def default_options (title : Value) : Entries :=
  .cons "responsive" (.bool true)
    (.cons "maintainAspectRatio" (.bool false)
      (.cons "plugins"
        (.dict
          (.cons "title"
            (.dict
              (.cons "display" (.bool true)
                (.cons "text" title
                  (.cons "font"
                    (.dict (.cons "size" (.int 16)
                      (.cons "weight" (.str "bold") .nil)))
                    .nil))))
            (.cons "legend"
              (.dict
                (.cons "display" (.bool true)
                  (.cons "position" (.str "top") .nil)))
              .nil)))
        (.cons "scales"
          (.dict
            (.cons "y"
              (.dict
                (.cons "beginAtZero" (.bool true)
                  (.cons "ticks"
                    (.dict
                      (.cons "callback"
                        (.str "function(value) \x7b return typeof value === \"number\" ? value.toLocaleString() : value; \x7d")
                        .nil))
                    .nil)))
              .nil))
          .nil)))

/-- The widget markup f-string of `_generate_chart_html`
(chart_extension.py lines 140-167), byte for byte (including the
whitespace-only lines). -/
def htmlTemplate (chart_id : String) (width height : Value) (config_json : String) :
    String :=
  "\n<div class=\"chart-container\" style=\"position: relative; width: 100%; height: "
    ++ pyStr height ++ "px; margin: 20px 0;\">\n"
    ++ "    <canvas id=\"" ++ chart_id ++ "\" width=\"" ++ pyStr width
    ++ "\" height=\"" ++ pyStr height ++ "\"></canvas>\n"
    ++ "</div>\n<script>\n(function() \x7b\n"
    ++ "    // Wait for Chart.js to load\n"
    ++ "    function initChart() \x7b\n"
    ++ "        if (typeof Chart === \x27undefined\x27) \x7b\n"
    ++ "            setTimeout(initChart, 100);\n"
    ++ "            return;\n"
    ++ "        \x7d\n"
    ++ "        \n"
    ++ "        const ctx = document.getElementById(\x27" ++ chart_id ++ "\x27);\n"
    ++ "        if (ctx && !ctx.chart) \x7b\n"
    ++ "            const config = " ++ config_json ++ ";\n"
    ++ "            ctx.chart = new Chart(ctx, config);\n"
    ++ "        \x7d\n"
    ++ "    \x7d\n"
    ++ "    \n"
    ++ "    if (document.readyState === \x27loading\x27) \x7b\n"
    ++ "        document.addEventListener(\x27DOMContentLoaded\x27, initChart);\n"
    ++ "    \x7d else \x7b\n"
    ++ "        initChart();\n"
    ++ "    \x7d\n"
    ++ "\x7d)();\n</script>\n"

/-- Model of `ChartPostprocessor._generate_chart_html(chart_id, config)`
(chart_extension.py lines 83-168).  A non-dict configuration raises
`AttributeError` at `config.get` (line 87); a non-dict `options` value
raises `AttributeError` at `dict2.items()` inside `_deep_merge`
(line 173). -/
def generate_chart_html (chart_id : String) (config : Value) : Except String String :=
  match config with
  | .dict es =>
      let chart_type := pyGet es "type" (.str "bar")
      let title := pyGet es "title" (.str "Chart")
      let width := pyGet es "width" (.int 800)
      let height := pyGet es "height" (.int 400)
      let data := pyGet es "data" (.dict .nil)
      match pyGet es "options" (.dict .nil) with
      | .dict oes =>
          let merged_options := deep_merge (default_options title) oes
          let chart_config : Value :=
            .dict (.cons "type" chart_type
              (.cons "data" data
                (.cons "options" (.dict merged_options) .nil)))
          let config_json := reSubCallbacks (jsonDumps 0 chart_config)
          .ok (htmlTemplate chart_id width height config_json)
      | _ => .error "AttributeError: options object has no attribute items"
  | _ => .error "AttributeError: config object has no attribute get"

def phPre : List Char :=
  ("<div class=\"chart-placeholder\" data-chart-id=\"").data

def phSuf : List Char := ("\"></div>").data

/-- One attempted match of the placeholder pattern
`<div class="chart-placeholder" data-chart-id="([^"]+)"></div>` at the
head of the input. -/
def phMatch (l : List Char) : Option (String × List Char) :=
  match dropPfx phPre l with
  | none => none
  | some r1 =>
      let cid := r1.takeWhile (fun c => c != '"')
      if cid.isEmpty then none
      else
        match dropPfx phSuf (r1.drop cid.length) with
        | none => none
        | some r2 => some (String.mk cid, r2)

/-- The `re.sub` scan of `ChartPostprocessor.run`: each placeholder whose
identifier is in the store is replaced by the generated widget markup
(not rescanned); a placeholder with an unknown identifier is emitted
unchanged (`match.group(0)`); an `AttributeError` escaping
`_generate_chart_html` aborts the whole substitution. -/
def renderScan (store : Entries) : Nat → List Char → Except String (List Char)
  | 0, l => .ok l
  | _ + 1, [] => .ok []
  | fuel + 1, c :: cs =>
      match phMatch (c :: cs) with
      | some (cid, rest) =>
          match store.lookup cid with
          | some cfg =>
              match generate_chart_html cid cfg with
              | .ok h => (fun out => h.data ++ out) <$> renderScan store fuel rest
              | .error e => .error e
          | none =>
              (fun out => phPre ++ cid.data ++ phSuf ++ out) <$>
                renderScan store fuel rest
      | none => (fun out => c :: out) <$> renderScan store fuel cs

/-- Model of `ChartPostprocessor.run(text)` (chart_extension.py lines 66-81):
return the text unchanged when the `chart_configs` attribute was never
created, otherwise substitute every placeholder. -/
def chartPostprocessor_run (text : String) (store : Option Entries) :
    Except String String :=
  match store with
  | none => .ok text
  | some s => (renderScan s text.data.length text.data).map String.mk

/-! Claim C4: the callback-unquoting transform. -/
/-- Substring containment on character lists. -/
def containsSub (pat : List Char) : List Char → Bool
  | [] => pat.isEmpty
  | c :: cs => pat.isPrefixOf (c :: cs) || containsSub pat cs

/-- The configuration of the spec's function-literal example: an option
value whose JSON-serialised form is the quoted string
`"function(value) \x7b return value; \x7d"`. -/
def c4_config : Value :=
  .dict (.cons "options"
    (.dict (.cons "scales"
      (.dict (.cons "y"
        (.dict (.cons "ticks"
          (.dict (.cons "callback"
            (.str "function(value) \x7b return value; \x7d") .nil)) .nil)) .nil)) .nil)) .nil)

/-- The widget markup the renderer emits for `c4_config`. -/
def c4_html : String :=
  match generate_chart_html "chart_abc12345" c4_config with
  | .ok h => h
  | .error e => e

/-! Claims C6 and C3: the renderer pass over the whole document. -/
/-- A stored configuration that `_generate_chart_html` can process without
raising: a dict whose `options` entry (defaulting to the empty dict) is
itself a dict. -/
def configOk : Value → Bool
  | .dict es =>
      match (es.lookup "options").getD (.dict .nil) with
      | .dict _ => true
      | _ => false
  | _ => false

/-- Every value of the store renders without raising. -/
def entriesValuesOk : Entries → Bool
  | .nil => true
  | .cons _ v tl => configOk v && entriesValuesOk tl

/-- A rendered-HTML document split into literal text and placeholder
markers. -/
inductive HtmlSeg where
  | lit (s : String)
  | ph (cid : String)

def HtmlSeg.chars : HtmlSeg → List Char
  | .lit s => s.data
  | .ph cid => phPre ++ cid.data ++ phSuf

def htmlChars : List HtmlSeg → List Char
  | [] => []
  | s :: rest => s.chars ++ htmlChars rest

/-- Side conditions under which the placeholder pattern matches exactly
the `ph` segments: literal text holds no tag opener at all, and an
identifier is non-empty without a double quote (as every extractor
identifier is). -/
def HtmlSeg.Ok : HtmlSeg → Prop
  | .lit s => '<' ∉ s.data
  | .ph cid => cid ≠ "" ∧ '"' ∉ cid.data

/-- What the renderer leaves for one segment: literal text verbatim, a
known placeholder becomes the generated widget markup, an unknown
placeholder stays unchanged.  (The error branch is unreachable when the
store satisfies `entriesValuesOk`.) -/
def renderSegChars (store : Entries) : HtmlSeg → List Char
  | .lit s => s.data
  | .ph cid =>
      match store.lookup cid with
      | some cfg =>
          match generate_chart_html cid cfg with
          | .ok h => h.data
          | .error _ => phPre ++ cid.data ++ phSuf
      | none => phPre ++ cid.data ++ phSuf

def renderChars (store : Entries) : List HtmlSeg → List Char
  | [] => []
  | s :: rest => renderSegChars store s ++ renderChars store rest

/-- The parser of the failing input: `yaml.safe_load("3")` returns the
scalar `3`. -/
def c3Parse : String → Except String Value := fun _ => .ok (.int 3)

def c3Gen : Nat → String := fun _ => "cid0"

/-! Claim C10: `CHART_TEMPLATES` and `get_chart_template`
(chart_extension.py lines 200-328).  Float literals are embedded as exact
decimals via `Value.dec` (mantissa, decimal exponent). -/
def lookupTemplate : List (String × Entries) → String → Option Entries
  | [], _ => none
  | (k, v) :: tl, key => if k = key then some v else lookupTemplate tl key

def CHART_TEMPLATES : List (String × Entries) :=
  [("revenue_comparison",
    .cons "type" (.str "bar")
      (.cons "title" (.str "Municipal Revenue Comparison")
        (.cons "width" (.int 800)
          (.cons "height" (.int 400)
            (.cons "data" (.dict
              (.cons "labels" (.arr (.cons (.str "Cleveland")
                  (.cons (.str "Suburban Average") .nil)))
                (.cons "datasets" (.arr (.cons (.dict
                  (.cons "label" (.str "Municipal Income Tax ($ millions)")
                    (.cons "data" (.arr (.cons (.dec 5385 1)
                        (.cons (.dec 452 1) .nil)))
                      (.cons "backgroundColor" (.arr (.cons (.str "#667eea")
                          (.cons (.str "#764ba2") .nil))) .nil)))) .nil)) .nil)))
              (.cons "options" (.dict
                (.cons "scales" (.dict
                  (.cons "y" (.dict
                    (.cons "beginAtZero" (.bool true)
                      (.cons "title" (.dict
                        (.cons "display" (.bool true)
                          (.cons "text" (.str "Revenue ($ millions)") .nil)))
                        .nil))) .nil)) .nil)) .nil)))))),
   ("property_tax_distribution",
    .cons "type" (.str "doughnut")
      (.cons "title" (.str "Cleveland Property Tax Distribution")
        (.cons "width" (.int 600)
          (.cons "height" (.int 400)
            (.cons "data" (.dict
              (.cons "labels" (.arr (.cons (.str "Cleveland Schools (67.6%)")
                  (.cons (.str "County (16.8%)")
                    (.cons (.str "City (9.3%)")
                      (.cons (.str "Library (6.4%)") .nil)))))
                (.cons "datasets" (.arr (.cons (.dict
                  (.cons "data" (.arr (.cons (.dec 67551 3)
                      (.cons (.dec 16782 3)
                        (.cons (.dec 9254 3)
                          (.cons (.dec 6413 3) .nil)))))
                    (.cons "backgroundColor" (.arr (.cons (.str "#667eea")
                        (.cons (.str "#764ba2")
                          (.cons (.str "#f093fb")
                            (.cons (.str "#f5576c") .nil))))) .nil))) .nil)) .nil)))
              (.cons "options" (.dict
                (.cons "plugins" (.dict
                  (.cons "legend" (.dict
                    (.cons "position" (.str "bottom") .nil)) .nil)) .nil)) .nil)))))),
   ("economic_development_investment",
    .cons "type" (.str "bar")
      (.cons "title" (.str "County Economic Development Investment by Region")
        (.cons "width" (.int 800)
          (.cons "height" (.int 400)
            (.cons "data" (.dict
              (.cons "labels" (.arr (.cons (.str "Cleveland")
                  (.cons (.str "Inner Ring Suburbs")
                    (.cons (.str "Outer Ring Suburbs") .nil))))
                (.cons "datasets" (.arr (.cons (.dict
                  (.cons "label" (.str "Investment ($ millions)")
                    (.cons "data" (.arr (.cons (.dec 892 1)
                        (.cons (.dec 331 1)
                          (.cons (.dec 217 1) .nil))))
                      (.cons "backgroundColor" (.arr (.cons (.str "#667eea")
                          (.cons (.str "#764ba2")
                            (.cons (.str "#f093fb") .nil)))) .nil)))) .nil)) .nil)))
              (.cons "options" (.dict
                (.cons "scales" (.dict
                  (.cons "y" (.dict
                    (.cons "beginAtZero" (.bool true)
                      (.cons "title" (.dict
                        (.cons "display" (.bool true)
                          (.cons "text" (.str "Investment ($ millions)") .nil)))
                        .nil)))
                    (.cons "x" (.dict
                      (.cons "title" (.dict
                        (.cons "display" (.bool true)
                          (.cons "text" (.str "Region") .nil))) .nil)) .nil)))
                  .nil)) .nil)))))),
   ("employment_flows",
    .cons "type" (.str "line")
      (.cons "title" (.str "Regional Employment Flow to Cleveland")
        (.cons "width" (.int 800)
          (.cons "height" (.int 400)
            (.cons "data" (.dict
              (.cons "labels" (.arr (.cons (.str "Healthcare")
                  (.cons (.str "Downtown Core")
                    (.cons (.str "Universities")
                      (.cons (.str "Total") .nil)))))
                (.cons "datasets" (.arr (.cons (.dict
                  (.cons "label" (.str "Total Employment")
                    (.cons "data" (.arr (.cons (.int 72000)
                        (.cons (.int 127000)
                          (.cons (.int 15200)
                            (.cons (.int 214200) .nil)))))
                      (.cons "borderColor" (.str "#667eea")
                        (.cons "backgroundColor" (.str "rgba(102, 126, 234, 0.1)")
                          (.cons "tension" (.dec 4 1) .nil))))))
                  (.cons (.dict
                    (.cons "label" (.str "Suburban Residents")
                      (.cons "data" (.arr (.cons (.int 51120)
                          (.cons (.int 99060)
                            (.cons (.int 9576)
                              (.cons (.int 147000) .nil)))))
                        (.cons "borderColor" (.str "#764ba2")
                          (.cons "backgroundColor" (.str "rgba(118, 75, 162, 0.1)")
                            (.cons "tension" (.dec 4 1) .nil)))))) .nil))) .nil)))
              (.cons "options" (.dict
                (.cons "scales" (.dict
                  (.cons "y" (.dict
                    (.cons "beginAtZero" (.bool true)
                      (.cons "title" (.dict
                        (.cons "display" (.bool true)
                          (.cons "text" (.str "Number of Jobs") .nil))) .nil)))
                    .nil)) .nil)) .nil))))))]

/-- Model of `get_chart_template(template_name, **kwargs)` (chart_extension.py
lines 316-328): raise `ValueError` for an unknown name, otherwise copy
the template and overwrite exactly the keyword arguments whose key
already exists at the template's top level.  `kwargs` is the keyword
dictionary in order (its keys are unique). -/
def get_chart_template (template_name : String) (kwargs : List (String × Value)) :
    Except String Entries :=
  match lookupTemplate CHART_TEMPLATES template_name with
  | none => .error ("Unknown chart template: " ++ template_name)
  | some template =>
      .ok (kwargs.foldl
        (fun t kv => if (t.lookup kv.1).isSome then dictUpdate t kv.1 kv.2 else t)
        template)

/-- The first template of `CHART_TEMPLATES`, for the C10 witness. -/
def revenueTemplate : Entries := (CHART_TEMPLATES.map Prod.snd).headD .nil

/-! Claim C8: `_deep_merge` mutates neither of its arguments.

The pure embedding `deep_merge` cannot express mutation, so the merge is
re-embedded over an explicit object heap: an address is an index into a
list of nodes, a dict object holds ordered key-to-address entries, every
other Python object is a leaf.  `result = dict1.copy()` allocates a fresh
address at the end of the heap (line 172), and `result[key] = value`
writes through `List.set` at the result's address (lines 175/177) — the
only writes the function performs.  The no-mutation claim is the frame
property: every address that existed before the call (in particular
`dict1`, `dict2` and everything reachable from them) still holds the very
same node afterwards. -/
inductive HNode where
  | leaf (v : Value)
  | dictN (entries : List (String × Nat))

def entryLookup : List (String × Nat) → String → Option Nat
  | [], _ => none
  | (k, a) :: tl, key => if k = key then some a else entryLookup tl key

def entryUpdate : List (String × Nat) → String → Nat → List (String × Nat)
  | [], key, a => [(key, a)]
  | (k, b) :: tl, key, a =>
      if k = key then (k, a) :: tl else (k, b) :: entryUpdate tl key a

def isDictAt (h : List HNode) (a : Nat) : Bool :=
  match h[a]? with
  | some (.dictN _) => true
  | _ => false

-- `_deep_merge` over the heap, fuel-recursive (`none` = out of fuel; the
-- configuration trees of an actual run are finite, so enough fuel always
-- exists).  `deep_merge_h` is the function entry: copy `dict1`, then fold
-- the items of `dict2` into the copy.
mutual

def deep_merge_h : Nat → List HNode → Nat → Nat → Option (List HNode × Nat)
  | 0, _, _, _ => none
  | fuel + 1, h, a1, a2 =>
      match h[a1]?, h[a2]? with
      | some (.dictN es1), some (.dictN es2) =>
          mergeItems fuel (h ++ [.dictN es1]) h.length es2
      | _, _ => none

def mergeItems : Nat → List HNode → Nat → List (String × Nat) →
    Option (List HNode × Nat)
  | _, h, r, [] => some (h, r)
  | 0, _, _, _ :: _ => none
  | fuel + 1, h, r, (key, va) :: rest =>
      match h[r]? with
      | some (.dictN res) =>
          match entryLookup res key with
          | some b =>
              if isDictAt h b && isDictAt h va then
                match deep_merge_h fuel h b va with
                | some (h2, m) =>
                    match h2[r]? with
                    | some (.dictN res2) =>
                        mergeItems fuel (h2.set r (.dictN (entryUpdate res2 key m)))
                          r rest
                    | _ => none
                | none => none
              else
                mergeItems fuel (h.set r (.dictN (entryUpdate res key va))) r rest
          | none =>
              mergeItems fuel (h.set r (.dictN (entryUpdate res key va))) r rest
      | _ => none

end

/-- A concrete heap for the C8 witness: base `{"a": 1}` at address 0,
overlay `{"a": 7}` at address 2. -/
def c8Heap : List HNode :=
  [.dictN [("a", 1)], .leaf (.int 1), .dictN [("a", 3)], .leaf (.int 7)]

/-! Theorems.  Everything below only proves properties of the
definitions above; the order follows the claims. -/

theorem deep_merge_cons (result : Entries) (k : String) (v : Value) (tl : Entries) :
    deep_merge result (.cons k v tl)
      = deep_merge (dictUpdate result k (mergeVal (result.lookup k) v)) tl := by
  rcases h : result.lookup k with _ | val
  · cases v <;> simp [deep_merge, mergeVal, h]
  · cases val <;> cases v <;> simp [deep_merge, mergeVal, h]

theorem lookup_dictUpdate_self (d : Entries) (k : String) (v : Value) :
    (dictUpdate d k v).lookup k = some v := by
  induction d with
  | nil => simp [dictUpdate, Entries.lookup]
  | cons k' v' tl ih =>
      by_cases h : k' = k <;> simp [dictUpdate, Entries.lookup, h, ih]

theorem lookup_dictUpdate_ne (d : Entries) (k : String) (v : Value) (k' : String)
    (h : k ≠ k') : (dictUpdate d k v).lookup k' = d.lookup k' := by
  induction d with
  | nil => simp [dictUpdate, Entries.lookup, h]
  | cons k0 v0 tl ih =>
      by_cases h0 : k0 = k
      · subst h0; simp [dictUpdate, Entries.lookup, h]
      · simp [dictUpdate, Entries.lookup, h0, ih]

theorem dictUpdate_self (d : Entries) (k : String) (v : Value)
    (h : d.lookup k = some v) : dictUpdate d k v = d := by
  induction d with
  | nil => simp [Entries.lookup] at h
  | cons k0 v0 tl ih =>
      by_cases h0 : k0 = k
      · subst h0
        simp [Entries.lookup] at h
        simp [dictUpdate, h]
      · simp [Entries.lookup, h0] at h
        simp [dictUpdate, h0, ih h]

theorem lookup_isSome_of_mem (d : Entries) (k : String) (v : Value)
    (h : (k, v) ∈ d.toList) : (d.lookup k).isSome := by
  induction d with
  | nil => simp [Entries.toList] at h
  | cons k0 v0 tl ih =>
      simp only [Entries.toList, List.mem_cons] at h
      rcases h with h | h
      · obtain ⟨rfl, rfl⟩ := Prod.mk.injEq .. ▸ h
        simp_all [Entries.lookup]
      · by_cases h0 : k0 = k <;> simp [Entries.lookup, h0, ih h]

theorem wf_lookup_of_mem (d : Entries) (k : String) (v : Value)
    (hwf : d.wf = true) (h : (k, v) ∈ d.toList) :
    d.lookup k = some v ∧ v.wf = true := by
  induction d with
  | nil => simp [Entries.toList] at h
  | cons k0 v0 tl ih =>
      simp only [Entries.wf, Bool.and_eq_true, Bool.not_eq_true'] at hwf
      obtain ⟨⟨hnd, hv0⟩, htl⟩ := hwf
      simp only [Entries.toList, List.mem_cons] at h
      rcases h with h | h
      · obtain ⟨rfl, rfl⟩ := Prod.mk.injEq .. ▸ h
        simp [Entries.lookup, hv0]
      · obtain ⟨hlk, hw⟩ := ih htl h
        refine ⟨?_, hw⟩
        by_cases h0 : k0 = k
        · subst h0
          have := lookup_isSome_of_mem tl k0 v h
          rw [hlk] at hnd; simp at hnd
        · simp [Entries.lookup, h0, hlk]

theorem sz_lt_of_mem (d : Entries) (k : String) (v : Value)
    (h : (k, v) ∈ d.toList) : v.sz < d.sz := by
  induction d with
  | nil => simp [Entries.toList] at h
  | cons k0 v0 tl ih =>
      simp only [Entries.toList, List.mem_cons] at h
      rcases h with h | h
      · obtain ⟨rfl, rfl⟩ := Prod.mk.injEq .. ▸ h
        simp [Entries.sz]; omega
      · have := ih h
        simp [Entries.sz]; omega

/-- The loop of `_deep_merge` leaves `result = D` unchanged when every item
it processes is already present in `D` with the very same value. -/
theorem deep_merge_loop_self (n : Nat)
    (IH : ∀ es : Entries, es.sz < n → es.wf = true → deep_merge es es = es)
    (D : Entries) :
    ∀ sub : Entries,
      (∀ p ∈ sub.toList, D.lookup p.1 = some p.2 ∧ p.2.wf = true ∧ p.2.sz < n) →
      deep_merge D sub = D := by
  intro sub
  induction sub with
  | nil => intro _; rfl
  | cons k v tl ih =>
      intro h
      obtain ⟨hk, hwf, hsz⟩ := h (k, v) (by simp [Entries.toList])
      rw [deep_merge_cons]
      have hmv : mergeVal (D.lookup k) v = v := by
        rw [hk]
        cases v with
        | dict es =>
            have : deep_merge es es = es := by
              refine IH es ?_ ?_
              · simp [Value.sz] at hsz; omega
              · simpa [Value.wf] using hwf
            simp [mergeVal, this]
        | str s => simp [mergeVal]
        | int m => simp [mergeVal]
        | dec m e => simp [mergeVal]
        | bool b => simp [mergeVal]
        | null => simp [mergeVal]
        | arr vs => simp [mergeVal]
      rw [hmv, dictUpdate_self D k v hk]
      exact ih (fun p hp => h p (by simp [Entries.toList, hp]))

theorem deep_merge_self_aux :
    ∀ n, ∀ D : Entries, D.sz ≤ n → D.wf = true → deep_merge D D = D := by
  intro n
  induction n using Nat.strong_induction_on with
  | _ n IHn =>
      intro D hsz hwf
      refine deep_merge_loop_self D.sz ?_ D D ?_
      · intro es h1 h2
        exact IHn es.sz (lt_of_lt_of_le h1 hsz) es le_rfl h2
      · intro p hp
        obtain ⟨hlk, hw⟩ := wf_lookup_of_mem D p.1 p.2 hwf (by simpa using hp)
        exact ⟨hlk, hw, sz_lt_of_mem D p.1 p.2 (by simpa using hp)⟩

/-- C7: `merge(D, {}) == D` and `merge(D, D) == D` for every dict tree `D`
(with the Python-dict invariant of unique keys at every level). -/
theorem deep_merge_idempotent (D : Entries) (hwf : D.wf = true) :
    deep_merge D .nil = D ∧ deep_merge D D = D :=
  ⟨rfl, deep_merge_self_aux D.sz D le_rfl hwf⟩

/-- Witness for C7 at the nested dict
`{"scales": {"y": {"beginAtZero": true}}}`. -/
theorem deep_merge_idempotent_witness :
    (Entries.cons "scales"
        (.dict (.cons "y" (.dict (.cons "beginAtZero" (.bool true) .nil)) .nil)) .nil).wf
        = true
    ∧ (deep_merge
        (Entries.cons "scales"
          (.dict (.cons "y" (.dict (.cons "beginAtZero" (.bool true) .nil)) .nil)) .nil)
        .nil
      = Entries.cons "scales"
          (.dict (.cons "y" (.dict (.cons "beginAtZero" (.bool true) .nil)) .nil)) .nil
      ∧ deep_merge
        (Entries.cons "scales"
          (.dict (.cons "y" (.dict (.cons "beginAtZero" (.bool true) .nil)) .nil)) .nil)
        (Entries.cons "scales"
          (.dict (.cons "y" (.dict (.cons "beginAtZero" (.bool true) .nil)) .nil)) .nil)
      = Entries.cons "scales"
          (.dict (.cons "y" (.dict (.cons "beginAtZero" (.bool true) .nil)) .nil)) .nil) :=
  ⟨by decide, deep_merge_idempotent _ (by decide)⟩

/-- C2: lookup characterisation of `_deep_merge`, plus the nested-override
example from the spec.  For every key of the overlay: if the key is in the
base and both values are dicts the result holds their recursive merge,
otherwise the overlay value; keys of the base absent from the overlay keep
the base value.  (`mergeVal` packages exactly that case split.)  The
overlay is a Python dict, so its top-level keys are unique. -/
theorem deep_merge_lookup_spec :
    (∀ (base overlay : Entries), overlay.keysNodup = true → ∀ k : String,
      (deep_merge base overlay).lookup k
        = match overlay.lookup k with
          | some v => some (mergeVal (base.lookup k) v)
          | none => base.lookup k)
    ∧ deep_merge
        (Entries.cons "scales"
          (.dict (.cons "y" (.dict (.cons "beginAtZero" (.bool true) .nil)) .nil)) .nil)
        (Entries.cons "scales"
          (.dict (.cons "y" (.dict (.cons "beginAtZero" (.bool false) .nil)) .nil)) .nil)
      = Entries.cons "scales"
          (.dict (.cons "y" (.dict (.cons "beginAtZero" (.bool false) .nil)) .nil)) .nil := by
  constructor
  · intro base overlay
    induction overlay generalizing base with
    | nil => intro _ k; simp [deep_merge, Entries.lookup]
    | cons k0 v0 tl ih =>
        intro hnd k
        simp only [Entries.keysNodup, Bool.and_eq_true, Bool.not_eq_true'] at hnd
        obtain ⟨hnd0, hndtl⟩ := hnd
        rw [deep_merge_cons, ih _ hndtl]
        by_cases hk : k0 = k
        · subst hk
          have htl : tl.lookup k0 = none := by
            cases h : tl.lookup k0 with
            | none => rfl
            | some _ => rw [h] at hnd0; simp at hnd0
          simp [Entries.lookup, htl, lookup_dictUpdate_self]
        · simp [Entries.lookup, hk, lookup_dictUpdate_ne _ _ _ _ hk]
  · decide

/-- Witness for C2: the characterisation applied to the spec's
nested-override pair at key "scales". -/
theorem deep_merge_lookup_spec_witness :
    (Entries.cons "scales"
        (.dict (.cons "y" (.dict (.cons "beginAtZero" (.bool false) .nil)) .nil))
        .nil).keysNodup = true
    ∧ (deep_merge
        (Entries.cons "scales"
          (.dict (.cons "y" (.dict (.cons "beginAtZero" (.bool true) .nil)) .nil)) .nil)
        (Entries.cons "scales"
          (.dict (.cons "y" (.dict (.cons "beginAtZero" (.bool false) .nil)) .nil)) .nil)).lookup
        "scales"
      = match (Entries.cons "scales"
          (.dict (.cons "y" (.dict (.cons "beginAtZero" (.bool false) .nil)) .nil))
          .nil).lookup "scales" with
        | some v => some (mergeVal ((Entries.cons "scales"
            (.dict (.cons "y" (.dict (.cons "beginAtZero" (.bool true) .nil)) .nil))
            .nil).lookup "scales") v)
        | none => (Entries.cons "scales"
            (.dict (.cons "y" (.dict (.cons "beginAtZero" (.bool true) .nil)) .nil))
            .nil).lookup "scales" :=
  ⟨by decide, deep_merge_lookup_spec.1 _ _ (by decide) "scales"⟩

theorem dropWhile_length_le {α : Type} (p : α → Bool) (l : List α) :
    (l.dropWhile p).length ≤ l.length := by
  induction l with
  | nil => simp [List.dropWhile]
  | cons a tl ih =>
      cases h : p a
      · simp [List.dropWhile, h]
      · simp only [List.dropWhile, h, List.length_cons]
        omega

theorem drop_one_length_le {α : Type} (l : List α) : (l.drop 1).length ≤ l.length := by
  cases l <;> simp

theorem lookup_appendEntries (a b : Entries) (k : String) :
    (appendEntries a b).lookup k
      = match a.lookup k with
        | some v => some v
        | none => b.lookup k := by
  induction a with
  | nil => simp [appendEntries, Entries.lookup]
  | cons k0 v0 tl ih =>
      by_cases h : k0 = k <;> simp [appendEntries, Entries.lookup, h, ih]

theorem appendEntries_assoc (a b c : Entries) :
    appendEntries (appendEntries a b) c = appendEntries a (appendEntries b c) := by
  induction a with
  | nil => simp [appendEntries]
  | cons k v tl ih => simp [appendEntries, ih]

theorem dictUpdate_eq_append (d : Entries) (k : String) (v : Value)
    (h : d.lookup k = none) : dictUpdate d k v = appendEntries d (.cons k v .nil) := by
  induction d with
  | nil => simp [dictUpdate, appendEntries]
  | cons k0 v0 tl ih =>
      by_cases h0 : k0 = k
      · subst h0; simp [Entries.lookup] at h
      · simp [Entries.lookup, h0] at h
        simp [dictUpdate, appendEntries, h0, ih h]

theorem specStore_lookup_none (parse : String → Except String Value)
    (gen : Nat → String) (segs : List Seg) (key : String) :
    ∀ n : Nat, (∀ i, n ≤ i → key ≠ gen i) →
      (specStore parse gen segs n).lookup key = none := by
  induction segs with
  | nil => intro n _; simp [specStore, Entries.lookup]
  | cons s rest ih =>
      intro n hkey
      cases s with
      | text l => simpa [specStore] using ih n hkey
      | chart body =>
          have hne : gen n ≠ key := fun h => hkey n le_rfl h.symm
          simp only [specStore, Entries.lookup, if_neg hne]
          exact ih (n + 1) (fun i hi => hkey i (by omega))

theorem specStore_keysNodup (parse : String → Except String Value)
    (gen : Nat → String) (hinj : ∀ j j', gen j = gen j' → j = j') (segs : List Seg) :
    ∀ n : Nat, (specStore parse gen segs n).keysNodup = true := by
  induction segs with
  | nil => intro n; simp [specStore, Entries.keysNodup]
  | cons s rest ih =>
      intro n
      cases s with
      | text l => simpa [specStore] using ih n
      | chart body =>
          have hfresh : (specStore parse gen rest (n + 1)).lookup (gen n) = none :=
            specStore_lookup_none parse gen rest (gen n) (n + 1)
              (fun i hi h => by have := hinj n i h; omega)
          simp [specStore, Entries.keysNodup, hfresh, ih (n + 1)]

theorem specStore_nil_of_count_zero (parse : String → Except String Value)
    (gen : Nat → String) (segs : List Seg) :
    ∀ n, chartCount segs = 0 → specStore parse gen segs n = .nil := by
  induction segs with
  | nil => intro n _; rfl
  | cons s rest ih =>
      intro n hc
      cases s with
      | text l =>
          simp only [chartCount] at hc
          simpa [specStore] using ih n hc
      | chart body => simp [chartCount] at hc

theorem pyStrip_opener : pyStrip "```chart" = "```chart" := by decide

theorem pyStrip_closer_bne : (pyStrip "```" != "```") = false := by decide

theorem takeWhile_no_closer (body : List String) (rest : List String)
    (h : ∀ l ∈ body, pyStrip l ≠ "```") :
    (body ++ "```" :: rest).takeWhile (fun l => pyStrip l != "```") = body := by
  induction body with
  | nil => simp [List.takeWhile, pyStrip_closer_bne]
  | cons b bs ih =>
      have hb : (pyStrip b != "```") = true := by
        simpa using h b (by simp)
      simp only [List.cons_append, List.takeWhile_cons, hb]
      simp [ih (fun l hl => h l (by simp [hl]))]

theorem dropWhile_no_closer (body : List String) (rest : List String)
    (h : ∀ l ∈ body, pyStrip l ≠ "```") :
    (body ++ "```" :: rest).dropWhile (fun l => pyStrip l != "```") = "```" :: rest := by
  induction body with
  | nil => simp [List.dropWhile, pyStrip_closer_bne]
  | cons b bs ih =>
      have hb : (pyStrip b != "```") = true := by
        simpa using h b (by simp)
      simp only [List.cons_append, List.dropWhile_cons, hb]
      simp [ih (fun l hl => h l (by simp [hl]))]

theorem takeWhile_all_no_closer (body : List String)
    (h : ∀ l ∈ body, pyStrip l ≠ "```") :
    body.takeWhile (fun l => pyStrip l != "```") = body := by
  induction body with
  | nil => simp
  | cons b bs ih =>
      have hb : (pyStrip b != "```") = true := by
        simpa using h b (by simp)
      simp only [List.takeWhile_cons, hb]
      simp [ih (fun l hl => h l (by simp [hl]))]

theorem dropWhile_all_no_closer (body : List String)
    (h : ∀ l ∈ body, pyStrip l ≠ "```") :
    body.dropWhile (fun l => pyStrip l != "```") = [] := by
  induction body with
  | nil => simp
  | cons b bs ih =>
      have hb : (pyStrip b != "```") = true := by
        simpa using h b (by simp)
      simp only [List.dropWhile_cons, hb]
      exact ih (fun l hl => h l (by simp [hl]))

/-- Unfolding of the extractor on an ordinary (non-opener) line. -/
theorem chartRun_text (parse : String → Except String Value) (gen : Nat → String)
    (line : String) (rest : List String) (n : Nat) (store : Option Entries)
    (h : pyStrip line ≠ "```chart") :
    chartRun parse gen (line :: rest) n store
      = (line :: (chartRun parse gen rest n store).1,
         (chartRun parse gen rest n store).2) := by
  simp [chartRun, h]

/-- Unfolding of the extractor on a terminated chart block whose body
parses successfully. -/
theorem chartRun_chart_ok (parse : String → Except String Value) (gen : Nat → String)
    (body rest : List String) (n : Nat) (store : Option Entries) (cfg : Value)
    (hne : body ≠ []) (hcl : ∀ l ∈ body, pyStrip l ≠ "```")
    (hp : parse (joinLines body) = .ok cfg) :
    chartRun parse gen ("```chart" :: (body ++ "```" :: rest)) n store
      = (placeholderLine (gen n)
          :: (chartRun parse gen rest (n + 1)
                (some (dictUpdate (store.getD .nil) (gen n) cfg))).1,
         (chartRun parse gen rest (n + 1)
            (some (dictUpdate (store.getD .nil) (gen n) cfg))).2) := by
  have hemp : (body ++ "```" :: rest).takeWhile (fun l => pyStrip l != "```") = body :=
    takeWhile_no_closer body rest hcl
  have hisEmp : body.isEmpty = false := by cases body <;> simp_all
  simp [chartRun, pyStrip_opener, hemp, dropWhile_no_closer body rest hcl, hisEmp, hp]

/-- Unfolding of the extractor on a terminated chart block whose body
fails to parse. -/
theorem chartRun_chart_err (parse : String → Except String Value) (gen : Nat → String)
    (body rest : List String) (n : Nat) (store : Option Entries) (e : String)
    (hne : body ≠ []) (hcl : ∀ l ∈ body, pyStrip l ≠ "```")
    (hp : parse (joinLines body) = .error e) :
    chartRun parse gen ("```chart" :: (body ++ "```" :: rest)) n store
      = (errorLine e :: (chartRun parse gen rest n store).1,
         (chartRun parse gen rest n store).2) := by
  have hemp : (body ++ "```" :: rest).takeWhile (fun l => pyStrip l != "```") = body :=
    takeWhile_no_closer body rest hcl
  have hisEmp : body.isEmpty = false := by cases body <;> simp_all
  simp [chartRun, pyStrip_opener, hemp, dropWhile_no_closer body rest hcl, hisEmp, hp]

/-- The extractor on a well-formed structured document, for any starting
index and store whose keys avoid the yet-unused identifiers. -/
theorem chartRun_flattenDoc (parse : String → Except String Value) (gen : Nat → String)
    (hinj : ∀ j j', gen j = gen j' → j = j') (segs : List Seg) :
    ∀ (n : Nat) (store : Option Entries),
      (∀ s ∈ segs, Seg.WellFormed parse s) →
      (∀ j, n ≤ j → (store.getD .nil).lookup (gen j) = none) →
      chartRun parse gen (flattenDoc segs) n store
        = (specOut gen segs n, n + chartCount segs,
           if chartCount segs = 0 then store
           else some (appendEntries (store.getD .nil) (specStore parse gen segs n))) := by
  induction segs with
  | nil => intro n store _ _; simp [flattenDoc, chartRun, specOut, chartCount]
  | cons s rest ih =>
      intro n store hwf hfresh
      have hwfs := hwf s (by simp)
      have hwfr : ∀ t ∈ rest, Seg.WellFormed parse t := fun t ht => hwf t (by simp [ht])
      cases s with
      | text l =>
          have hl : pyStrip l ≠ "```chart" := hwfs
          have : flattenDoc (Seg.text l :: rest) = l :: flattenDoc rest := by
            simp [flattenDoc, Seg.flatten]
          rw [this, chartRun_text parse gen l _ n store hl, ih n store hwfr hfresh]
          simp [specOut, chartCount, specStore]
      | chart body =>
          obtain ⟨hne, hcl, hok⟩ := hwfs
          obtain ⟨cfg, hp⟩ : ∃ cfg, parse (joinLines body) = .ok cfg := by
            cases h : parse (joinLines body) with
            | ok v => exact ⟨v, rfl⟩
            | error e => rw [h] at hok; simp [Except.isOk, Except.toBool] at hok
          have hflat : flattenDoc (Seg.chart body :: rest)
              = "```chart" :: (body ++ "```" :: flattenDoc rest) := by
            simp [flattenDoc, Seg.flatten]
          have hupd : dictUpdate (store.getD .nil) (gen n) cfg
              = appendEntries (store.getD .nil) (.cons (gen n) cfg .nil) :=
            dictUpdate_eq_append _ _ _ (hfresh n le_rfl)
          have hfresh' : ∀ j, n + 1 ≤ j →
              ((some (dictUpdate (store.getD .nil) (gen n) cfg)).getD Entries.nil).lookup
                (gen j) = none := by
            intro j hj
            have hne' : gen n ≠ gen j := fun h => by have := hinj n j h; omega
            simp only [Option.getD_some, hupd, lookup_appendEntries,
              hfresh j (by omega), Entries.lookup, if_neg hne']
          rw [hflat, chartRun_chart_ok parse gen body _ n store cfg hne hcl hp,
            ih (n + 1) _ hwfr hfresh']
          by_cases hc : chartCount rest = 0
          · have hsnil : specStore parse gen rest (n + 1) = .nil :=
              specStore_nil_of_count_zero parse gen rest (n + 1) hc
            simp [specOut, chartCount, specStore, hc, hp, okValue, hupd, hsnil]
          · have hn : n + 1 + chartCount rest = n + (chartCount rest + 1) := by omega
            simp [specOut, chartCount, specStore, hc, hp, okValue, hupd, hn,
              appendEntries_assoc, appendEntries]

/-- C1: on any well-formed document (ordinary lines and well-formed chart
blocks, with an injective identifier source), `ChartPreprocessor.run`
replaces each chart block by exactly one placeholder line, keeps every
other line verbatim in order, and ends with a configuration store holding
exactly one entry per emitted placeholder, keyed by the placeholder's
identifier (the store keys are pairwise distinct). -/
theorem chartPreprocessor_run_spec (parse : String → Except String Value)
    (gen : Nat → String) (segs : List Seg)
    (hinj : ∀ j j', gen j = gen j' → j = j')
    (hwf : ∀ s ∈ segs, Seg.WellFormed parse s) :
    chartRun parse gen (flattenDoc segs) 0 none
      = (specOut gen segs 0, chartCount segs,
         if chartCount segs = 0 then none
         else some (specStore parse gen segs 0))
    ∧ (specStore parse gen segs 0).keysNodup = true := by
  constructor
  · have := chartRun_flattenDoc parse gen hinj segs 0 none hwf
      (fun j _ => by simp [Entries.lookup])
    simpa [appendEntries] using this
  · exact specStore_keysNodup parse gen hinj segs 0

theorem wGen_inj : ∀ j j', wGen j = wGen j' → j = j' := by
  intro j j' h
  have hd : List.replicate (j + 1) 'i' = List.replicate (j' + 1) 'i' :=
    congrArg String.data h
  have := congrArg List.length hd
  simpa using this

/-- Witness for C1: the characterisation applied to a three-segment
document with one chart block. -/
theorem chartPreprocessor_run_spec_witness :
    chartRun wParse wGen (flattenDoc wDoc) 0 none
      = (specOut wGen wDoc 0, chartCount wDoc,
         if chartCount wDoc = 0 then none
         else some (specStore wParse wGen wDoc 0))
    ∧ (specStore wParse wGen wDoc 0).keysNodup = true :=
  chartPreprocessor_run_spec wParse wGen wDoc wGen_inj (by
    intro s hs
    simp only [wDoc, List.mem_cons, List.not_mem_nil, or_false] at hs
    rcases hs with rfl | rfl | rfl
    · exact (by decide : pyStrip "# Title" ≠ "```chart")
    · exact ⟨by decide, by decide, by decide⟩
    · exact (by decide : pyStrip "done" ≠ "```chart"))

/-- C5: a chart block whose body fails to decode produces exactly one
inline error marker (the fixed `chart-error` class with the failure
message) in place of a placeholder, adds nothing to the configuration
store, and the remaining lines are processed exactly as they would be
from the same state. -/
theorem chartPreprocessor_run_decode_failure (parse : String → Except String Value)
    (gen : Nat → String) (body rest : List String) (n : Nat) (store : Option Entries)
    (e : String) (hne : body ≠ []) (hcl : ∀ l ∈ body, pyStrip l ≠ "```")
    (hp : parse (joinLines body) = .error e) :
    chartRun parse gen ("```chart" :: (body ++ "```" :: rest)) n store
      = (errorLine e :: (chartRun parse gen rest n store).1,
         (chartRun parse gen rest n store).2) :=
  chartRun_chart_err parse gen body rest n store e hne hcl hp

/-- Witness for C5 at the body `["- ["]` with an erroring parser. -/
theorem chartPreprocessor_run_decode_failure_witness :
    chartRun wParse wGen ("```chart" :: (["- ["] ++ "```" :: ["after"])) 0 none
      = (errorLine "mapping values are not allowed here"
           :: (chartRun wParse wGen ["after"] 0 none).1,
         (chartRun wParse wGen ["after"] 0 none).2) :=
  chartPreprocessor_run_decode_failure wParse wGen ["- ["] ["after"] 0 none
    "mapping values are not allowed here" (by decide) (by decide) rfl

/-- C9: an unterminated chart block (opener with no closing fence before
the end of input) consumes every remaining line as the block body and the
extractor still terminates with a well-defined result: one placeholder or
one error marker (or nothing for an empty body), and nothing after it. -/
theorem chartPreprocessor_run_unterminated (parse : String → Except String Value)
    (gen : Nat → String) (body : List String) (n : Nat) (store : Option Entries)
    (hcl : ∀ l ∈ body, pyStrip l ≠ "```") :
    chartRun parse gen ("```chart" :: body) n store
      = if body.isEmpty then ([], n, store)
        else match parse (joinLines body) with
          | .ok cfg => ([placeholderLine (gen n)], n + 1,
              some (dictUpdate (store.getD .nil) (gen n) cfg))
          | .error e => ([errorLine e], n, store) := by
  have ht := takeWhile_all_no_closer body hcl
  have hd := dropWhile_all_no_closer body hcl
  cases hparse : parse (joinLines body) with
  | ok cfg =>
      by_cases hb : body.isEmpty
      · simp [chartRun, pyStrip_opener, ht, hd, hb]
      · simp [chartRun, pyStrip_opener, ht, hd, hb, hparse]
  | error e =>
      by_cases hb : body.isEmpty
      · simp [chartRun, pyStrip_opener, ht, hd, hb]
      · simp [chartRun, pyStrip_opener, ht, hd, hb, hparse]

/-- Witness for C9 at the unterminated input
`["```chart", "type: bar"]`. -/
theorem chartPreprocessor_run_unterminated_witness :
    chartRun wParse wGen ("```chart" :: ["type: bar"]) 0 none
      = if (["type: bar"] : List String).isEmpty then ([], 0, none)
        else match wParse (joinLines ["type: bar"]) with
          | .ok cfg => ([placeholderLine (wGen 0)], 0 + 1,
              some (dictUpdate ((none : Option Entries).getD .nil) (wGen 0) cfg))
          | .error e => ([errorLine e], 0, none) :=
  chartPreprocessor_run_unterminated wParse wGen ["type: bar"] 0 none (by decide)

/-- C4, counterexample: the renderer succeeds on the spec's example
configuration, but the emitted widget markup does NOT contain the text
`function(value) \x7b return value; \x7d` claimed by the spec: the
greedy `[^\x7d]+` body group keeps the trailing space of the function
body and the replacement template adds another one, so the single-space
text the claim names never occurs. -/
theorem c4_counterexample :
    (generate_chart_html "chart_abc12345" c4_config).isOk = true
    ∧ containsSub ("function(value) \x7b return value; \x7d").data c4_html.data = false := by
  constructor
  · decide
  · decide

/-- C4, amended: the emitted widget markup contains
`function(value) \x7b return value;  \x7d` — the function literal
unquoted, with the body's trailing space preserved inside the rebuilt
literal (hence a double space before the closing brace) — and no longer
contains the quoted string literal form. -/
theorem c4_amended_unquoting :
    containsSub ("function(value) \x7b return value;  \x7d").data c4_html.data = true
    ∧ containsSub ("\"function(value) \x7b return value; \x7d\"").data c4_html.data
        = false := by
  constructor
  · decide
  · decide

theorem generate_isOk (cid : String) (cfg : Value) (h : configOk cfg = true) :
    (generate_chart_html cid cfg).isOk = true := by
  cases cfg with
  | dict es =>
      simp only [configOk] at h
      simp only [generate_chart_html, pyGet]
      cases hop : (es.lookup "options").getD (.dict .nil) with
      | dict oes => simp [Except.isOk, Except.toBool]
      | str s => rw [hop] at h; simp at h
      | int n => rw [hop] at h; simp at h
      | dec m e => rw [hop] at h; simp at h
      | bool b => rw [hop] at h; simp at h
      | null => rw [hop] at h; simp at h
      | arr vs => rw [hop] at h; simp at h
  | str s => simp [configOk] at h
  | int n => simp [configOk] at h
  | dec m e => simp [configOk] at h
  | bool b => simp [configOk] at h
  | null => simp [configOk] at h
  | arr vs => simp [configOk] at h

theorem lookup_valuesOk (store : Entries) (cid : String) (cfg : Value)
    (hst : entriesValuesOk store = true) (h : store.lookup cid = some cfg) :
    configOk cfg = true := by
  induction store with
  | nil => simp [Entries.lookup] at h
  | cons k v tl ih =>
      simp only [entriesValuesOk, Bool.and_eq_true] at hst
      by_cases hk : k = cid
      · simp [Entries.lookup, hk] at h
        exact h ▸ hst.1
      · simp only [Entries.lookup, if_neg hk] at h
        exact ih hst.2 h

theorem dropPfx_append (p r : List Char) : dropPfx p (p ++ r) = some r := by
  induction p with
  | nil => simp [dropPfx]
  | cons c cs ih => simp [dropPfx, ih]

theorem dropPfx_length (p : List Char) :
    ∀ l r, dropPfx p l = some r → l.length = p.length + r.length := by
  induction p with
  | nil => intro l r h; simp [dropPfx] at h; simp [h]
  | cons c cs ih =>
      intro l r h
      cases l with
      | nil => simp [dropPfx] at h
      | cons a as =>
          simp only [dropPfx] at h
          by_cases ha : a = c
          · simp only [if_pos ha] at h
            have := ih as r h
            simp [this]; omega
          · simp [if_neg ha] at h

theorem phMatch_length (l : List Char) (cid : String) (rest : List Char)
    (h : phMatch l = some (cid, rest)) : rest.length + 1 ≤ l.length := by
  simp only [phMatch] at h
  cases h1 : dropPfx phPre l with
  | none => rw [h1] at h; simp at h
  | some r1 =>
      rw [h1] at h
      simp only at h
      by_cases hemp : (r1.takeWhile (fun c => c != '"')).isEmpty
      · simp [hemp] at h
      · simp only [hemp, Bool.false_eq_true, if_false, if_neg] at h
        cases h2 : dropPfx phSuf (r1.drop (r1.takeWhile (fun c => c != '"')).length) with
        | none => rw [h2] at h; simp at h
        | some r2 =>
            rw [h2] at h
            simp only [Option.some.injEq, Prod.mk.injEq] at h
            obtain ⟨_, rfl⟩ := h
            have e1 := dropPfx_length phPre l r1 h1
            have e2 := dropPfx_length phSuf _ r2 h2
            have e3 : (r1.drop (r1.takeWhile (fun c => c != '"')).length).length
                ≤ r1.length := by
              simp [List.length_drop]
            have hpre : 0 < phPre.length := by decide
            omega

theorem phMatch_not_lt (c : Char) (cs : List Char) (h : c ≠ '<') :
    phMatch (c :: cs) = none := by
  have hpre : phPre = '<' ::
      ("div class=\"chart-placeholder\" data-chart-id=\"").data := rfl
  simp [phMatch, hpre, dropPfx, h]

theorem takeWhile_nq (l : List Char) (h : '"' ∉ l) (t : List Char) :
    (l ++ '"' :: t).takeWhile (fun c => c != '"') = l := by
  induction l with
  | nil => simp [List.takeWhile]
  | cons c cs ih =>
      have hc : (c != '"') = true := by
        simp only [List.mem_cons, not_or] at h
        simp only [bne_iff_ne, ne_eq]
        exact fun hh => h.1 hh.symm
      simp only [List.cons_append, List.takeWhile_cons, hc]
      simp only [List.mem_cons, not_or] at h
      simp [ih h.2]

theorem phMatch_placeholder (cid : String) (hne : cid ≠ "") (hq : '"' ∉ cid.data)
    (rest : List Char) :
    phMatch ((phPre ++ cid.data ++ phSuf) ++ rest) = some (cid, rest) := by
  have hsuf : phSuf = '"' :: ("></div>").data := rfl
  have hdata : cid.data ≠ [] := by
    intro hd
    apply hne
    cases cid with
    | mk l => simp at hd; simp [hd]
  have hshape : (phPre ++ cid.data ++ phSuf) ++ rest
      = phPre ++ (cid.data ++ '"' :: (("></div>").data ++ rest)) := by
    simp [hsuf, List.append_assoc]
  rw [hshape]
  simp only [phMatch, dropPfx_append]
  rw [takeWhile_nq cid.data hq (("></div>").data ++ rest)]
  have hie : cid.data.isEmpty = false := by
    cases hd : cid.data with
    | nil => exact absurd hd hdata
    | cons a as => simp
  simp only [hie, Bool.false_eq_true, if_false, if_neg]
  rw [List.drop_left]
  rw [show ('"' :: (("></div>").data ++ rest)) = phSuf ++ rest from by simp [hsuf]]
  rw [dropPfx_append]

theorem exceptMap_isOk {α β : Type} (f : α → β) (e : Except String α) :
    (Except.map f e).isOk = e.isOk := by
  cases e <;> rfl

theorem fmapExcept_isOk {α β : Type} (f : α → β) (e : Except String α) :
    (f <$> e).isOk = e.isOk := by
  cases e <;> rfl

theorem phPre_cons :
    phPre = '<' :: ("div class=\"chart-placeholder\" data-chart-id=\"").data := rfl

/-- The scan copies a run of text containing no tag opener verbatim. -/
theorem renderScan_lit (store : Entries) (cs : List Char) (h : '<' ∉ cs) :
    ∀ (tail r : List Char),
      (∀ g, tail.length ≤ g → renderScan store g tail = .ok r) →
      ∀ fuel, cs.length + tail.length ≤ fuel →
      renderScan store fuel (cs ++ tail) = .ok (cs ++ r) := by
  induction cs with
  | nil =>
      intro tail r htail fuel hf
      simpa using htail fuel (by simpa using hf)
  | cons c cs' ih =>
      intro tail r htail fuel hf
      simp only [List.mem_cons, not_or] at h
      cases fuel with
      | zero => simp at hf
      | succ fuel =>
          simp only [List.cons_append, renderScan, List.append_eq,
            phMatch_not_lt c _ (Ne.symm h.1)]
          rw [ih h.2 tail r htail fuel (by simp only [List.length_cons] at hf; omega)]
          simp [Functor.map, Except.map]

/-- Unfolding of the scan at a successful placeholder match. -/
theorem renderScan_step_match (store : Entries) (l : List Char) (cid : String)
    (rest : List Char) (fuel : Nat) (hm : phMatch l = some (cid, rest))
    (hl : l ≠ []) :
    renderScan store (fuel + 1) l
      = match store.lookup cid with
        | some cfg =>
            match generate_chart_html cid cfg with
            | .ok h => (fun out => h.data ++ out) <$> renderScan store fuel rest
            | .error e => .error e
        | none =>
            (fun out => phPre ++ cid.data ++ phSuf ++ out) <$>
              renderScan store fuel rest := by
  cases l with
  | nil => exact absurd rfl hl
  | cons c cs =>
      simp only [renderScan]
      rw [hm]

/-- The renderer pass over a structured document: every placeholder whose
identifier is in the (renderable) store becomes the generated widget
markup, every other character of the document is kept verbatim. -/
theorem renderScan_html (store : Entries) (hstore : entriesValuesOk store = true) :
    ∀ (doc : List HtmlSeg), (∀ s ∈ doc, s.Ok) →
      ∀ fuel, (htmlChars doc).length ≤ fuel →
      renderScan store fuel (htmlChars doc) = .ok (renderChars store doc) := by
  intro doc
  induction doc with
  | nil =>
      intro _ fuel _
      cases fuel <;> simp [renderScan, htmlChars, renderChars]
  | cons s rest ih =>
      intro hdoc fuel hf
      have hs := hdoc s (by simp)
      have hrest : ∀ t ∈ rest, HtmlSeg.Ok t := fun t ht => hdoc t (by simp [ht])
      cases s with
      | lit t =>
          have hlt : '<' ∉ t.data := hs
          simp only [htmlChars, HtmlSeg.chars]
          rw [renderScan_lit store t.data hlt (htmlChars rest) (renderChars store rest)
            (fun g hg => ih hrest g hg) fuel
            (by simp only [htmlChars, HtmlSeg.chars, List.length_append] at hf; omega)]
          simp [renderChars, renderSegChars]
      | ph cid =>
          obtain ⟨hne, hq⟩ := hs
          have hpre0 : 0 < phPre.length := by rw [phPre_cons]; simp
          cases fuel with
          | zero =>
              simp only [htmlChars, HtmlSeg.chars, List.length_append,
                Nat.le_zero] at hf
              omega
          | succ fuel =>
              simp only [htmlChars, HtmlSeg.chars]
              have hm : phMatch ((phPre ++ cid.data ++ phSuf) ++ htmlChars rest)
                  = some (cid, htmlChars rest) := phMatch_placeholder cid hne hq _
              have hl : (phPre ++ cid.data ++ phSuf) ++ htmlChars rest ≠ [] := by
                rw [phPre_cons]; simp
              rw [renderScan_step_match store _ cid (htmlChars rest) fuel hm hl]
              have hfr : (htmlChars rest).length ≤ fuel := by
                simp only [htmlChars, HtmlSeg.chars, List.length_append] at hf
                omega
              cases hlk : store.lookup cid with
              | some cfg =>
                  have hok := generate_isOk cid cfg (lookup_valuesOk store cid cfg hstore hlk)
                  cases hg : generate_chart_html cid cfg with
                  | ok h =>
                      rw [ih hrest fuel hfr]
                      simp [Functor.map, Except.map, renderChars, renderSegChars, hlk, hg]
                  | error e => rw [hg] at hok; simp [Except.isOk, Except.toBool] at hok
              | none =>
                  rw [ih hrest fuel hfr]
                  simp [Functor.map, Except.map, renderChars, renderSegChars, hlk]

/-- The scan never raises over a store whose configurations all render. -/
theorem renderScan_isOk (store : Entries) (hstore : entriesValuesOk store = true) :
    ∀ (fuel : Nat) (l : List Char), (renderScan store fuel l).isOk = true := by
  intro fuel
  induction fuel with
  | zero => intro l; rfl
  | succ fuel ih =>
      intro l
      cases l with
      | nil => rfl
      | cons c cs =>
          simp only [renderScan]
          cases hm : phMatch (c :: cs) with
          | none => simp [fmapExcept_isOk, ih]
          | some p =>
              obtain ⟨cid, rest⟩ := p
              cases hlk : store.lookup cid with
              | some cfg =>
                  have hok := generate_isOk cid cfg (lookup_valuesOk store cid cfg hstore hlk)
                  cases hg : generate_chart_html cid cfg with
                  | ok h => simp [hlk, hg, fmapExcept_isOk, ih]
                  | error e => rw [hg] at hok; simp [Except.isOk, Except.toBool] at hok
              | none => simp [hlk, fmapExcept_isOk, ih]

/-- C6: `ChartPostprocessor.run` returns the text unchanged when no store
was ever created; over a document of literal text and placeholders it
replaces exactly the placeholders whose identifier is in the store by the
generated widget markup, leaves placeholders with unknown identifiers
textually unchanged, and raises nothing (the run is `.ok`). -/
theorem chartPostprocessor_run_contract :
    (∀ text : String, chartPostprocessor_run text none = .ok text)
    ∧ (∀ (doc : List HtmlSeg) (store : Entries),
        (∀ s ∈ doc, HtmlSeg.Ok s) → entriesValuesOk store = true →
        chartPostprocessor_run (String.mk (htmlChars doc)) (some store)
          = .ok (String.mk (renderChars store doc))) := by
  constructor
  · intro text; rfl
  · intro doc store hdoc hstore
    simp only [chartPostprocessor_run]
    rw [renderScan_html store hstore doc hdoc (htmlChars doc).length le_rfl]
    rfl

/-- Witness for C6: a document with one known and one unknown placeholder
around literal text, over a one-entry store. -/
theorem chartPostprocessor_run_contract_witness :
    chartPostprocessor_run
        (String.mk (htmlChars [.lit "hello ", .ph "chart_1", .lit " mid ",
          .ph "chart_missing"]))
        (some (.cons "chart_1" (.dict .nil) .nil))
      = .ok (String.mk (renderChars (.cons "chart_1" (.dict .nil) .nil)
          [.lit "hello ", .ph "chart_1", .lit " mid ", .ph "chart_missing"])) :=
  chartPostprocessor_run_contract.2
    [.lit "hello ", .ph "chart_1", .lit " mid ", .ph "chart_missing"]
    (.cons "chart_1" (.dict .nil) .nil)
    (by
      intro s hs
      simp only [List.mem_cons, List.not_mem_nil, or_false] at hs
      rcases hs with rfl | rfl | rfl | rfl
      · exact (by decide : '<' ∉ ("hello " : String).data)
      · exact ⟨by decide, by decide⟩
      · exact (by decide : '<' ∉ (" mid " : String).data)
      · exact ⟨by decide, by decide⟩)
    (by decide)

/-! Claim C3: exception containment of the extractor and renderer pipeline. -/
theorem dictUpdate_valuesOk (d : Entries) (k : String) (v : Value)
    (hd : entriesValuesOk d = true) (hv : configOk v = true) :
    entriesValuesOk (dictUpdate d k v) = true := by
  induction d with
  | nil => simp [dictUpdate, entriesValuesOk, hv]
  | cons k0 v0 tl ih =>
      simp only [entriesValuesOk, Bool.and_eq_true] at hd
      by_cases h0 : k0 = k
      · simp [dictUpdate, h0, entriesValuesOk, hv, hd.2]
      · simp [dictUpdate, h0, entriesValuesOk, hd.1, ih hd.2]

/-- Every configuration the extractor ever stores is a successfully
parsed value, so when the parser only produces renderable values the
store only holds renderable values. -/
theorem chartRun_store_ok (parse : String → Except String Value) (gen : Nat → String)
    (hparse : ∀ s v, parse s = .ok v → configOk v = true) :
    ∀ (L : Nat) (lines : List String), lines.length ≤ L →
      ∀ (n : Nat) (store : Option Entries),
      entriesValuesOk (store.getD .nil) = true →
      entriesValuesOk (((chartRun parse gen lines n store).2.2).getD .nil) = true := by
  intro L
  induction L with
  | zero =>
      intro lines hl n store hst
      cases lines with
      | nil => simpa [chartRun] using hst
      | cons line rest => simp at hl
  | succ L ihL =>
      intro lines hl n store hst
      cases lines with
      | nil => simpa [chartRun] using hst
      | cons line rest =>
          by_cases hop : pyStrip line = "```chart"
          · have hlen : ((rest.dropWhile (fun l => pyStrip l != "```")).drop 1).length ≤ L := by
              have h1 := dropWhile_length_le (fun l => pyStrip l != "```") rest
              have h2 := drop_one_length_le (rest.dropWhile (fun l => pyStrip l != "```"))
              simp only [List.length_cons] at hl
              omega
            by_cases hemp : (rest.takeWhile (fun l => pyStrip l != "```")).isEmpty
            · simp only [chartRun, hop, if_pos rfl, hemp, if_true]
              exact ihL _ hlen n store hst
            · cases hp : parse (joinLines (rest.takeWhile (fun l => pyStrip l != "```"))) with
              | ok cfg =>
                  simp only [chartRun, hop, if_pos rfl, hemp, Bool.false_eq_true,
                    if_false, hp]
                  refine ihL _ hlen (n + 1) _ ?_
                  simpa using dictUpdate_valuesOk _ (gen n) cfg hst (hparse _ _ hp)
              | error e =>
                  simp only [chartRun, hop, if_pos rfl, hemp, Bool.false_eq_true,
                    if_false, hp]
                  exact ihL _ hlen n store hst
          · simp [chartRun, hop]
            exact ihL rest (by simp only [List.length_cons] at hl; omega) n store hst

/-- C3, amended: the extractor-then-renderer pipeline raises no exception
provided every successfully decoded chart configuration is a mapping
whose `options` value (when present) is itself a mapping; decode failures
are still contained (they never reach the store).  Without that proviso
the pipeline can raise — see the counterexample. -/
theorem chart_pipeline_no_fatal (parse : String → Except String Value)
    (gen : Nat → String) (hparse : ∀ s v, parse s = .ok v → configOk v = true)
    (lines : List String) (text : String) (n : Nat) :
    (chartPostprocessor_run text ((chartRun parse gen lines n none).2.2)).isOk
      = true := by
  have hso := chartRun_store_ok parse gen hparse lines.length lines le_rfl n none rfl
  cases hst : (chartRun parse gen lines n none).2.2 with
  | none => rfl
  | some s =>
      rw [hst] at hso
      simp only [Option.getD_some] at hso
      simp only [chartPostprocessor_run]
      rw [exceptMap_isOk]
      exact renderScan_isOk s hso _ _

/-- Witness for the amended C3 at a one-chart document. -/
theorem chart_pipeline_no_fatal_witness :
    (chartPostprocessor_run "converted text"
        ((chartRun wParse wGen ["```chart", "type: bar", "```"] 0 none).2.2)).isOk
      = true :=
  chart_pipeline_no_fatal wParse wGen
    (by
      intro s v hv
      by_cases h : s = "type: bar"
      · simp [wParse, h] at hv
        subst hv
        decide
      · simp [wParse, h] at hv)
    ["```chart", "type: bar", "```"] "converted text" 0

/-- C3, counterexample: on the document whose single chart block body
decodes to the scalar `3`, the extractor stores the non-mapping value and
the renderer then raises (`config.get` on a non-dict — an
`AttributeError` escaping `ChartPostprocessor.run`), so the failure is
not contained to the chart block. -/
theorem c3_counterexample :
    chartRun c3Parse c3Gen ["```chart", "3", "```"] 0 none
        = ([placeholderLine "cid0"], 1, some (.cons "cid0" (.int 3) .nil))
    ∧ chartPostprocessor_run (placeholderLine "cid0")
        (some (.cons "cid0" (.int 3) .nil))
        = .error "AttributeError: config object has no attribute get" := by
  constructor
  · have h := chartRun_chart_ok c3Parse c3Gen ["3"] [] 0 none (.int 3)
      (by decide) (by decide) rfl
    show chartRun c3Parse c3Gen ("```chart" :: (["3"] ++ "```" :: ([] : List String)))
        0 none = _
    rw [h]
    simp [chartRun, dictUpdate, c3Gen]
  · rfl

theorem mem_keys_of_lookup_some (l : List (String × Value)) (k : String) (v : Value)
    (h : l.lookup k = some v) : k ∈ l.map Prod.fst := by
  induction l with
  | nil => simp [List.lookup] at h
  | cons p ps ih =>
      simp only [List.lookup] at h
      cases hp : k == p.1 with
      | true =>
          simp only [List.map_cons, List.mem_cons]
          exact Or.inl (beq_iff_eq.mp hp)
      | false =>
          rw [hp] at h
          simp only [List.map_cons, List.mem_cons]
          exact Or.inr (ih h)

theorem applyKwargs_lookup (kwargs : List (String × Value)) :
    ∀ (t : Entries), (kwargs.map Prod.fst).Nodup → ∀ k : String,
      (kwargs.foldl
        (fun t kv => if (t.lookup kv.1).isSome then dictUpdate t kv.1 kv.2 else t)
        t).lookup k
      = match kwargs.lookup k, t.lookup k with
        | some v, some _ => some v
        | _, _ => t.lookup k := by
  induction kwargs with
  | nil =>
      intro t _ k
      cases h : t.lookup k <;> simp [List.lookup, h]
  | cons kv rest ih =>
      intro t hnd k
      obtain ⟨k0, v0⟩ := kv
      simp only [List.map_cons, List.nodup_cons] at hnd
      simp only [List.foldl_cons]
      rw [ih _ hnd.2 k]
      by_cases hk : k0 = k
      · subst hk
        have hrest : rest.lookup k0 = none := by
          cases hr : rest.lookup k0 with
          | none => rfl
          | some v => exact absurd (mem_keys_of_lookup_some rest k0 v hr) hnd.1
        rw [hrest]
        cases ht : t.lookup k0 with
        | none =>
            simp only [ht, Option.isSome_none, Bool.false_eq_true, if_false]
            simp [List.lookup, ht]
        | some w =>
            simp only [ht, Option.isSome_some, if_true]
            simp [List.lookup, lookup_dictUpdate_self, ht]
      · have hkb : (k == k0) = false := by
          rw [beq_eq_false_iff_ne]
          exact fun hh => hk hh.symm
        have hLne : List.lookup k ((k0, v0) :: rest) = List.lookup k rest := by
          simp [List.lookup, hkb]
        have hTne : (if (t.lookup k0).isSome then dictUpdate t k0 v0 else t).lookup k
            = t.lookup k := by
          by_cases ht : (t.lookup k0).isSome
          · simp [ht, lookup_dictUpdate_ne t k0 v0 k hk]
          · simp [ht]
        rw [hLne, hTne]

/-- C10: `get_chart_template` raises `ValueError` exactly for names
outside `CHART_TEMPLATES`; on a known name it returns the template with a
keyword argument overriding precisely the top-level keys that already
exist in the template, and keyword arguments with unknown keys silently
ignored. -/
theorem get_chart_template_spec :
    (∀ (template_name : String) (kwargs : List (String × Value)),
      (get_chart_template template_name kwargs).isOk = false
        ↔ lookupTemplate CHART_TEMPLATES template_name = none)
    ∧ (∀ (template_name : String) (template : Entries)
        (kwargs : List (String × Value)),
        lookupTemplate CHART_TEMPLATES template_name = some template →
        (kwargs.map Prod.fst).Nodup →
        ∃ result : Entries, get_chart_template template_name kwargs = .ok result
          ∧ ∀ k : String, result.lookup k
              = match kwargs.lookup k, template.lookup k with
                | some v, some _ => some v
                | _, _ => template.lookup k) := by
  constructor
  · intro template_name kwargs
    cases h : lookupTemplate CHART_TEMPLATES template_name with
    | none => simp [get_chart_template, h, Except.isOk, Except.toBool]
    | some t => simp [get_chart_template, h, Except.isOk, Except.toBool]
  · intro template_name template kwargs h hnd
    refine ⟨kwargs.foldl
        (fun t kv => if (t.lookup kv.1).isSome then dictUpdate t kv.1 kv.2 else t)
        template, ?_, ?_⟩
    · simp [get_chart_template, h]
    · exact applyKwargs_lookup kwargs template hnd

/-- Witness for C10: the revenue template with a known-key override and
an ignored unknown key. -/
theorem get_chart_template_spec_witness :
    (get_chart_template "no_such_template" []).isOk = false
    ∧ ∃ result : Entries,
        get_chart_template "revenue_comparison"
            [("title", .str "Override"), ("nope", .int 1)] = .ok result
          ∧ ∀ k : String, result.lookup k
              = match ([("title", Value.str "Override"), ("nope", Value.int 1)]
                    : List (String × Value)).lookup k,
                  revenueTemplate.lookup k with
                | some v, some _ => some v
                | _, _ => revenueTemplate.lookup k :=
  ⟨(get_chart_template_spec.1 "no_such_template" []).mpr rfl,
   get_chart_template_spec.2 "revenue_comparison" revenueTemplate
    [("title", .str "Override"), ("nope", .int 1)] rfl (by decide)⟩

theorem deep_merge_h_frame_aux : ∀ fuel : Nat,
    (∀ (h : List HNode) (a1 a2 : Nat) (h2 : List HNode) (r : Nat),
      deep_merge_h fuel h a1 a2 = some (h2, r) →
      h.length ≤ h2.length ∧ ∀ i, i < h.length → h2[i]? = h[i]?)
    ∧ (∀ (h : List HNode) (r : Nat) (es : List (String × Nat))
        (h2 : List HNode) (r2 : Nat),
      mergeItems fuel h r es = some (h2, r2) →
      h.length ≤ h2.length ∧ r2 = r ∧
        ∀ i, i < h.length → i ≠ r → h2[i]? = h[i]?) := by
  intro fuel
  induction fuel with
  | zero =>
      constructor
      · intro h a1 a2 h2 r hmg
        simp [deep_merge_h] at hmg
      · intro h r es h2 r2 hl
        cases es with
        | nil =>
            simp only [mergeItems, Option.some.injEq, Prod.mk.injEq] at hl
            obtain ⟨rfl, rfl⟩ := hl
            exact ⟨le_rfl, rfl, fun i _ _ => rfl⟩
        | cons e rest => simp [mergeItems] at hl
  | succ fuel ihf =>
      obtain ⟨IHm, IHl⟩ := ihf
      constructor
      · intro h a1 a2 h2 r hmg
        simp only [deep_merge_h] at hmg
        cases h1 : h[a1]? with
        | none => rw [h1] at hmg; simp at hmg
        | some nd1 =>
            rw [h1] at hmg
            cases nd1 with
            | leaf v => simp at hmg
            | dictN es1 =>
                cases h2m : h[a2]? with
                | none => rw [h2m] at hmg; simp at hmg
                | some nd2 =>
                    rw [h2m] at hmg
                    cases nd2 with
                    | leaf v => simp at hmg
                    | dictN es2 =>
                        simp only at hmg
                        obtain ⟨hle, hr2, hfr⟩ := IHl _ _ _ _ _ hmg
                        constructor
                        · simpa using le_trans (by simp) hle
                        · intro i hi
                          rw [hfr i (by simp; omega) (by omega)]
                          exact List.getElem?_append_left hi
      · intro h r es h2 r2 hl
        cases es with
        | nil =>
            simp only [mergeItems, Option.some.injEq, Prod.mk.injEq] at hl
            obtain ⟨rfl, rfl⟩ := hl
            exact ⟨le_rfl, rfl, fun i _ _ => rfl⟩
        | cons e rest =>
            obtain ⟨key, va⟩ := e
            simp only [mergeItems] at hl
            cases hr : h[r]? with
            | none => rw [hr] at hl; simp at hl
            | some nd =>
                rw [hr] at hl
                cases nd with
                | leaf v => simp at hl
                | dictN res =>
                    simp only at hl
                    cases hel : entryLookup res key with
                    | none =>
                        rw [hel] at hl
                        simp only at hl
                        obtain ⟨hle, hr2, hfr⟩ := IHl _ _ _ _ _ hl
                        refine ⟨by simpa using hle, hr2, ?_⟩
                        intro i hi hir
                        rw [hfr i (by simpa using hi) hir]
                        exact List.getElem?_set_ne (fun hh => hir hh.symm)
                    | some b =>
                        rw [hel] at hl
                        simp only at hl
                        by_cases hd : (isDictAt h b && isDictAt h va) = true
                        · rw [if_pos hd] at hl
                          cases hmm : deep_merge_h fuel h b va with
                          | none => rw [hmm] at hl; simp at hl
                          | some p =>
                              obtain ⟨hm, m⟩ := p
                              rw [hmm] at hl
                              simp only at hl
                              obtain ⟨hmle, hmfr⟩ := IHm _ _ _ _ _ hmm
                              cases hr2' : hm[r]? with
                              | none => rw [hr2'] at hl; simp at hl
                              | some nd2 =>
                                  rw [hr2'] at hl
                                  cases nd2 with
                                  | leaf v => simp at hl
                                  | dictN res2 =>
                                      simp only at hl
                                      obtain ⟨hle, hreq, hfr⟩ := IHl _ _ _ _ _ hl
                                      refine ⟨?_, hreq, ?_⟩
                                      · calc h.length ≤ hm.length := hmle
                                          _ = (hm.set r
                                              (.dictN (entryUpdate res2 key m))).length
                                              := by simp
                                          _ ≤ h2.length := hle
                                      · intro i hi hir
                                        rw [hfr i (by simp; omega) hir]
                                        rw [List.getElem?_set_ne
                                          (fun hh => hir hh.symm)]
                                        exact hmfr i hi
                        · rw [if_neg hd] at hl
                          obtain ⟨hle, hr2, hfr⟩ := IHl _ _ _ _ _ hl
                          refine ⟨by simpa using hle, hr2, ?_⟩
                          intro i hi hir
                          rw [hfr i (by simpa using hi) hir]
                          exact List.getElem?_set_ne (fun hh => hir hh.symm)

/-- C8: `_deep_merge(dict1, dict2)` leaves both of its arguments (and
every other pre-existing object) unchanged: after a completed call every
address that existed in the heap before the call still holds the same
node, since the function only allocates the fresh `result` copy and
writes only at result addresses. -/
theorem deep_merge_no_mutation (fuel : Nat) (h : List HNode) (a1 a2 : Nat)
    (h2 : List HNode) (r : Nat) (hrun : deep_merge_h fuel h a1 a2 = some (h2, r)) :
    ∀ i, i < h.length → h2[i]? = h[i]? :=
  ((deep_merge_h_frame_aux fuel).1 h a1 a2 h2 r hrun).2

/-- Witness for C8: merging the two dicts of `c8Heap` allocates the
result at the fresh address 4 and both argument addresses still hold
their original nodes. -/
theorem deep_merge_no_mutation_witness :
    deep_merge_h 4 c8Heap 0 2 = some (c8Heap ++ [.dictN [("a", 3)]], 4)
    ∧ (c8Heap ++ [.dictN [("a", 3)]])[0]? = c8Heap[0]?
    ∧ (c8Heap ++ [.dictN [("a", 3)]])[2]? = c8Heap[2]? := by
  have heq : deep_merge_h 4 c8Heap 0 2 = some (c8Heap ++ [.dictN [("a", 3)]], 4) := rfl
  exact ⟨heq,
    deep_merge_no_mutation 4 c8Heap 0 2 (c8Heap ++ [.dictN [("a", 3)]]) 4 heq 0
      (by decide),
    deep_merge_no_mutation 4 c8Heap 0 2 (c8Heap ++ [.dictN [("a", 3)]]) 4 heq 2
      (by decide)⟩

end ChartExt
